import Mathlib

/-
Verification of the event-driven relay pipeline against its design document.

The definitions below are a shallow embedding of the Python sources:
  - src/ffmpeg_split.py          (segmentation policy)
  - src/video_duration_utils.py  (duration policy and extension)
  - src/youtube_monitor.py       (polling path, download stage, upload fan-out,
                                  channel-list cache)
  - src/youtube_monitor_pubsub.py (push path, routing, single-in-flight flag)

Durations are modelled as rationals (the sources use Python floats for
durations, and every constant involved is exact in both representations).
External effectful collaborators (yt-dlp, pytube, ffmpeg, moviepy, the
TikTok uploader, the filesystem) are modelled by their outcome: each call
site takes the outcome of the external call as an explicit parameter, and
the embedding reproduces the branching the Python code performs on that
outcome.
-/

namespace Relay

/-- Python's two-argument `min` on rationals: the first argument when the two
compare equal, written out as a conditional so that concrete instances reduce
in the kernel.  It agrees with Mathlib's `min` (lemma `pymin_eq_min`). -/
def pymin (a b : ℚ) : ℚ := if a ≤ b then a else b

/-! ## Segmentation policy (src/ffmpeg_split.py) -/

/-- Segment loop of ffmpeg_split_video (src/ffmpeg_split.py lines 87-138).
The loop runs `i` over `range actual_num_parts` with `start = i * md`,
breaks when `start >= duration`, computes `end = min(start + md, duration)`,
skips (continue) a part shorter than 3 seconds, and otherwise emits the
part.  The ffmpeg subprocess extracting each emitted part is an external
collaborator and is modelled as succeeding, so the returned list holds the
(start, end) offsets of the emitted parts.  The first argument of the
recursion is the loop index `i`, the second the number of iterations left. -/
def segsFrom (D md : ℚ) : ℕ → ℕ → List (ℚ × ℚ)
  | _, 0 => []
  | i, n + 1 =>
    if D ≤ (i : ℚ) * md then []
    else
      if pymin ((i : ℚ) * md + md) D - (i : ℚ) * md < 3 then
        segsFrom D md (i + 1) n
      else
        ((i : ℚ) * md, pymin ((i : ℚ) * md + md) D) :: segsFrom D md (i + 1) n

/-- Embedding of ffmpeg_split_video (src/ffmpeg_split.py lines 25-145) on a
video of duration `D`: `max_possible_parts = int(duration // part_duration)`,
`actual_num_parts = min(num_parts, max_possible_parts)`, raised to at least 1
when the duration is at least 3 seconds (lines 76-81), then the segment loop. -/
def ffmpeg_split_video (D : ℚ) (num_parts : ℕ) (max_duration : ℚ) : List (ℚ × ℚ) :=
  let max_possible_parts : ℤ := Rat.floor (D / max_duration)
  let actual_num_parts : ℤ :=
    if 3 ≤ D then max 1 (min (num_parts : ℤ) max_possible_parts)
    else min (num_parts : ℤ) max_possible_parts
  segsFrom D max_duration 0 actual_num_parts.toNat

/-! ## Duration policy (src/video_duration_utils.py) -/

/-- Validity part of check_video_duration_requirements
(src/video_duration_utils.py lines 48-73): reject a zero duration (probe
failure), a duration below 3 seconds, or a duration above 120 seconds. -/
def check_video_duration_requirements (D : ℚ) : Bool :=
  if D = 0 then false
  else if D < 3 then false
  else if 120 < D then false
  else true

/-- Duration of the file produced by extend_video_to_minimum_duration
(src/video_duration_utils.py lines 75-165): if the video already meets the
target, it is returned unchanged; otherwise the original is followed by a
loop of its own first `min(target - D, D)` seconds, so the result lasts
`D + min(target - D, D)`.  The re-encode is modelled as duration preserving. -/
def extend_video_to_minimum_duration (D target : ℚ) : ℚ :=
  if target ≤ D then D
  else D + (if 0 < target - D then pymin (target - D) D else 0)

/-- Embedding of process_video_for_upload (src/video_duration_utils.py lines
167-213): returns the duration of the file handed to segmentation, or none
when the video is rejected.  A video shorter than 60 seconds is extended
with target 63 seconds. -/
def process_video_for_upload (D : ℚ) : Option ℚ :=
  if check_video_duration_requirements D = false then none
  else if D < 60 then some (extend_video_to_minimum_duration D 63)
  else some D

/-! ## Helper lemmas for the segmentation policy -/

lemma pymin_eq_min (a b : ℚ) : pymin a b = min a b := by
  rw [pymin, min_def]

lemma pymin_le_left (a b : ℚ) : pymin a b ≤ a := by
  rw [pymin]; split
  · exact le_refl a
  · exact le_of_not_le (by assumption)

lemma rat_floor_eq_intFloor (q : ℚ) : Rat.floor q = ⌊q⌋ := by
  rw [Rat.floor_def, Rat.floor_def']

lemma segsFrom_nil_of_le {D md : ℚ} (i n : ℕ) (h : D ≤ (i : ℚ) * md) :
    segsFrom D md i n = [] := by
  cases n <;> simp [segsFrom, h]

/-- Head shape of the segment loop: a first emitted segment starts exactly at
the current loop offset, and that offset lies strictly before the end of the
video. -/
lemma segsFrom_head {D md : ℚ} (hmd : 3 ≤ md) :
    ∀ (n i : ℕ) (p : ℚ × ℚ), (segsFrom D md i n).head? = some p →
      p.1 = (i : ℚ) * md ∧ (i : ℚ) * md < D := by
  intro n
  induction n with
  | zero => intro i p h; simp [segsFrom] at h
  | succ n ih =>
    intro i p h
    by_cases h1 : D ≤ (i : ℚ) * md
    · rw [segsFrom_nil_of_le i (n + 1) h1] at h; simp at h
    · simp only [segsFrom] at h
      rw [if_neg h1] at h
      by_cases h2 : pymin ((i : ℚ) * md + md) D - (i : ℚ) * md < 3
      · rw [if_pos h2] at h
        have hstop : D ≤ ((i + 1 : ℕ) : ℚ) * md := by
          by_cases h3 : (i : ℚ) * md + md ≤ D
          · exfalso
            rw [pymin, if_pos h3] at h2
            linarith
          · push_neg at h3
            push_cast
            linarith
        rw [segsFrom_nil_of_le (i + 1) n hstop] at h
        simp at h
      · rw [if_neg h2] at h
        simp only [List.head?_cons, Option.some.injEq] at h
        subst h
        exact ⟨rfl, lt_of_not_le h1⟩

/-- Structural properties of the segment loop: each emitted segment lasts
between 3 seconds and the part duration, consecutive segments are adjacent,
and at most one segment is emitted per loop iteration. -/
lemma segsFrom_props {D md : ℚ} (hmd : 3 ≤ md) :
    ∀ (n i : ℕ),
      (∀ p ∈ segsFrom D md i n, 3 ≤ p.2 - p.1 ∧ p.2 - p.1 ≤ md) ∧
      List.Chain' (fun a b : ℚ × ℚ => a.2 = b.1) (segsFrom D md i n) ∧
      (segsFrom D md i n).length ≤ n := by
  intro n
  induction n with
  | zero => intro i; simp [segsFrom]
  | succ n ih =>
    intro i
    by_cases h1 : D ≤ (i : ℚ) * md
    · rw [segsFrom_nil_of_le i (n + 1) h1]; simp
    · simp only [segsFrom]
      rw [if_neg h1]
      by_cases h2 : pymin ((i : ℚ) * md + md) D - (i : ℚ) * md < 3
      · rw [if_pos h2]
        obtain ⟨hmem, hchain, hlen⟩ := ih (i + 1)
        exact ⟨hmem, hchain, hlen.trans (Nat.le_succ n)⟩
      · rw [if_neg h2]
        push_neg at h2
        obtain ⟨hmem, hchain, hlen⟩ := ih (i + 1)
        refine ⟨?_, ?_, ?_⟩
        · intro p hp
          rcases List.mem_cons.mp hp with hp | hp
          · subst hp
            refine ⟨h2, ?_⟩
            have := pymin_le_left ((i : ℚ) * md + md) D
            simp only
            linarith
          · exact hmem p hp
        · rw [List.chain'_cons']
          refine ⟨?_, hchain⟩
          intro q hq
          obtain ⟨hq1, hq2⟩ := segsFrom_head hmd n (i + 1) q hq
          have hx : (i : ℚ) * md + md < D := by
            push_cast at hq2
            linarith [hq2]
          simp only
          rw [pymin, if_pos (le_of_lt hx), hq1]
          push_cast
          ring
        · simpa using Nat.succ_le_succ hlen

/-- C4 (counterexample): for duration 50 s and part_count_hint 3 the splitter
emits one segment, but min(part_count_hint, floor(D / 113)) = min(3, 0) = 0,
so the claimed bound `count ≤ min(part_count_hint, floor(D / max_part_duration))`
fails: the code raises the part count to at least 1 whenever D ≥ 3 s. -/
theorem C4_count_bound_cex :
    ¬ (((ffmpeg_split_video 50 3 113).length : ℤ) ≤ min ((3 : ℕ) : ℤ) ⌊(50 : ℚ) / 113⌋) := by
  have h1 : ffmpeg_split_video 50 3 113 = [(0, 50)] := by
    norm_num [ffmpeg_split_video, rat_floor_eq_intFloor, segsFrom, pymin]
  have h2 : ⌊(50 : ℚ) / 113⌋ = 0 := by
    rw [Int.floor_eq_zero_iff]
    constructor <;> norm_num
  rw [h1, h2]
  norm_num

/-- C4 (amended): with min_duration = 3 s and max_part_duration = 113 s, every
emitted segment lasts between 3 and 113 seconds, consecutive segments are
contiguous (each segment ends where the next starts, hence ordered and
non-overlapping), and the number of emitted segments is at most
max(1, min(part_count_hint, floor(D / 113))) — the extra max(1, ...) comes
from lines 79-81 of src/ffmpeg_split.py, which force at least one part
whenever D ≥ 3 s. -/
theorem C4_segmentation_bounds (D : ℚ) (hint : ℕ) (hD : 0 ≤ D) :
    (∀ p ∈ ffmpeg_split_video D hint 113, 3 ≤ p.2 - p.1 ∧ p.2 - p.1 ≤ 113) ∧
    List.Chain' (fun a b : ℚ × ℚ => a.2 = b.1) (ffmpeg_split_video D hint 113) ∧
    ((ffmpeg_split_video D hint 113).length : ℤ) ≤ max 1 (min (hint : ℤ) ⌊D / 113⌋) := by
  have hunf : ffmpeg_split_video D hint 113 =
      segsFrom D 113 0
        ((if 3 ≤ D then max 1 (min (hint : ℤ) (Rat.floor (D / 113)))
          else min (hint : ℤ) (Rat.floor (D / 113))).toNat) := rfl
  obtain ⟨hmem, hchain, hlen⟩ :=
    segsFrom_props (show (3 : ℚ) ≤ 113 by norm_num)
      ((if 3 ≤ D then max 1 (min (hint : ℤ) (Rat.floor (D / 113)))
        else min (hint : ℤ) (Rat.floor (D / 113))).toNat) 0
  rw [hunf]
  refine ⟨hmem, hchain, ?_⟩
  have hfl0 : 0 ≤ ⌊D / 113⌋ := Int.floor_nonneg.mpr (by positivity)
  have hcast : ((segsFrom D 113 0
      ((if 3 ≤ D then max 1 (min (hint : ℤ) (Rat.floor (D / 113)))
        else min (hint : ℤ) (Rat.floor (D / 113))).toNat)).length : ℤ) ≤
      (((if 3 ≤ D then max 1 (min (hint : ℤ) (Rat.floor (D / 113)))
        else min (hint : ℤ) (Rat.floor (D / 113))).toNat : ℕ) : ℤ) := by
    exact_mod_cast hlen
  refine hcast.trans ?_
  rw [rat_floor_eq_intFloor]
  by_cases h3D : 3 ≤ D
  · rw [if_pos h3D, Int.toNat_of_nonneg (le_trans zero_le_one (le_max_left 1 _))]
  · rw [if_neg h3D,
      Int.toNat_of_nonneg (le_min (Int.natCast_nonneg hint) hfl0)]
    exact le_max_right 1 _

/-- C4 (witness): the amended bounds at D = 300, part_count_hint = 3. -/
theorem C4_segmentation_bounds_w :
    (0 : ℚ) ≤ 300 ∧
      ((∀ p ∈ ffmpeg_split_video 300 3 113, 3 ≤ p.2 - p.1 ∧ p.2 - p.1 ≤ 113) ∧
        List.Chain' (fun a b : ℚ × ℚ => a.2 = b.1) (ffmpeg_split_video 300 3 113) ∧
        ((ffmpeg_split_video 300 3 113).length : ℤ) ≤
          max 1 (min ((3 : ℕ) : ℤ) ⌊(300 : ℚ) / 113⌋)) :=
  ⟨by norm_num, C4_segmentation_bounds 300 3 (by norm_num)⟩

/-- C5 (counterexample): for D = 300 s, max_part_duration = 113 s and
part_count_hint = 3 the splitter does not emit three segments: actual parts
= min(3, floor(300 / 113)) = min(3, 2) = 2, so the claimed segment list
[0,113), [113,226), [226,300) is not produced. -/
theorem C5_three_parts_cex :
    ffmpeg_split_video 300 3 113 ≠ [(0, 113), (113, 226), (226, 300)] := by
  have h1 : ffmpeg_split_video 300 3 113 = [(0, 113), (113, 226)] := by
    norm_num [ffmpeg_split_video, rat_floor_eq_intFloor, segsFrom, pymin]
  rw [h1]
  intro h
  have := congrArg List.length h
  simp at this

/-- C5 (amended): for D = 300 s, max_part_duration = 113 s and
part_count_hint = 3 the splitter emits exactly the two segments [0,113) and
[113,226); the final 74 seconds are never reached because the part count is
capped at min(part_count_hint, floor(300 / 113)) = 2 before the loop runs. -/
theorem C5_split_300 : ffmpeg_split_video 300 3 113 = [(0, 113), (113, 226)] := by
  norm_num [ffmpeg_split_video, rat_floor_eq_intFloor, segsFrom, pymin]

/-- C6 (counterexample): a 10-second video is inside the claimed 3 s ≤ D < 60 s
window, yet the extension step produces a 20-second file, below the extend
target of 63 s: the code appends a single loop of min(63 - D, D) seconds
rather than looping until the target is reached. -/
theorem C6_extension_cex :
    process_video_for_upload 10 = some 20 ∧ ¬ ((63 : ℚ) ≤ 20) := by
  constructor
  · norm_num [process_video_for_upload, check_video_duration_requirements,
      extend_video_to_minimum_duration, pymin]
  · norm_num

/-- C6 (amended): for 3 s ≤ D < 60 s the duration pipeline accepts the video
and extends it to exactly min(2·D, 63) seconds — which reaches the extend
target 63 only when D ≥ 31.5 s — and the extended duration is never less than
the original duration D. -/
theorem C6_extension_duration (D : ℚ) (h3 : 3 ≤ D) (h60 : D < 60) :
    process_video_for_upload D = some (min (2 * D) 63) ∧ D ≤ min (2 * D) 63 := by
  have hck : check_video_duration_requirements D = true := by
    simp only [check_video_duration_requirements]
    rw [if_neg (by intro h; rw [h] at h3; norm_num at h3),
      if_neg (by linarith : ¬ D < 3), if_neg (by linarith : ¬ (120 : ℚ) < D)]
  constructor
  · simp only [process_video_for_upload, hck]
    rw [if_neg (by simp), if_pos h60]
    simp only [extend_video_to_minimum_duration]
    rw [if_neg (by linarith : ¬ (63 : ℚ) ≤ D), if_pos (by linarith : (0 : ℚ) < 63 - D),
      pymin_eq_min]
    congr 1
    rcases le_total (63 - D) D with h | h
    · rw [min_eq_left h, min_eq_right (by linarith : (63 : ℚ) ≤ 2 * D)]
      ring
    · rw [min_eq_right h, min_eq_left (by linarith : 2 * D ≤ (63 : ℚ))]
      ring
  · rw [le_min_iff]
    constructor <;> linarith

/-- C6 (witness): the amended statement at D = 45, where the extension reaches
exactly the 63-second target. -/
theorem C6_extension_duration_w :
    ((3 : ℚ) ≤ 45 ∧ (45 : ℚ) < 60) ∧
      (process_video_for_upload 45 = some (min (2 * 45) 63) ∧
        (45 : ℚ) ≤ min (2 * 45) 63) :=
  ⟨⟨by norm_num, by norm_num⟩, C6_extension_duration 45 (by norm_num) (by norm_num)⟩

/-! ## Content events and dedup state
(src/youtube_monitor.py, src/youtube_monitor_pubsub.py) -/

/-- Content event fields the dedup and routing logic reads: the raw item id,
the title, and the channel id carried by the notification payload (absent on
some payloads). -/
structure Video where
  id : String
  title : String
  channel_id : Option String
deriving DecidableEq

/-- Stand-in for the hexdigest of Python's hashlib.md5, an external library
primitive: a deterministic digest of a string.  No theorem below depends on
anything but its determinism (the spec's stability of the digest); the
counterexamples evaluate it only on states where the digest set is empty. -/
def md5hex (s : String) : String :=
  toString (s.foldl (fun a c => (a * 131 + c.toNat) % 18446744073709551616) 7)

/-- Dedup key of the polling path (src/youtube_monitor.py line 624):
md5 over the string "{video_id}_{video_title}". -/
def video_hash (v : Video) : String := md5hex (v.id ++ "_" ++ v.title)

/-- Dedup-relevant process state: the pubsub monitor's processed_videos set
(src/youtube_monitor_pubsub.py line 31, persisted to processed_videos.json)
and the polling monitor's video_hash_cache (src/youtube_monitor.py line 41,
persisted to video_hash_cache.pkl).  Sets are modelled as lists of members. -/
structure DedupState where
  processed_videos : List String
  video_hash_cache : List String
deriving DecidableEq

/-- Dedup gate of the push path (src/youtube_monitor_pubsub.py line 136):
video_notification_callback proceeds unless the raw video id is already in
processed_videos. -/
def pushAccepts (s : DedupState) (v : Video) : Bool :=
  ! s.processed_videos.contains v.id

/-- Dedup gate of the polling path (src/youtube_monitor.py lines 622-628):
check_channel_for_new_videos proceeds unless md5("{id}_{title}") is already
in video_hash_cache (is_video_processed, line 184-186). -/
def pollAccepts (s : DedupState) (v : Video) : Bool :=
  ! s.video_hash_cache.contains (video_hash v)

/-- Dedup effect of the push path, video_notification_callback
(src/youtube_monitor_pubsub.py lines 130-155): if the raw id is already in
processed_videos the state is untouched; otherwise the id is added to
processed_videos and persisted (lines 149-151) before process_video_async
runs, so the outcome of the later download (the unused parameter) cannot
influence the dedup state. -/
def video_notification_callback (s : DedupState) (v : Video) (_dlOk : Bool) : DedupState :=
  if s.processed_videos.contains v.id then s
  else { s with processed_videos := s.processed_videos ++ [v.id] }

/-- Dedup effect of the polling path, check_channel_for_new_videos
(src/youtube_monitor.py lines 592-699): the hash gate (lines 622-628), then
the download stage (lines 641-644, outcome dlOk), then split_video
(lines 659-662, outcome splitOk — split_video returns an empty list both when
the duration policy rejects the video and when splitting fails, lines
435-462 of the same file); only after all of these succeed are the hash
added to video_hash_cache (mark_video_processed, lines 188-194) and appended
to processed_videos (lines 672-674). -/
def check_channel_for_new_videos (s : DedupState) (v : Video)
    (dlOk : Bool) (splitOk : Bool) : DedupState :=
  if s.video_hash_cache.contains (video_hash v) then s
  else if !dlOk then s
  else if !splitOk then s
  else { processed_videos := s.processed_videos ++ [video_hash v],
         video_hash_cache := s.video_hash_cache ++ [video_hash v] }

/-- C2 (counterexample): a state in which the push path has recorded item id
"v1" in processed_videos while video_hash_cache is empty.  The push dedup
gate rejects the item, the polling dedup gate accepts it: the two ingestion
paths do not consult the same dedup state — push keys on the raw item id,
polling on the md5 digest of "{id}_{title}", stored in two different
structures. -/
theorem C2_dedup_paths_differ_cex :
    pushAccepts ⟨["v1"], []⟩ ⟨"v1", "t", none⟩ ≠
      pollAccepts ⟨["v1"], []⟩ ⟨"v1", "t", none⟩ := by
  decide

/-- C2 (amended): the push-path dedup gate and the polling-path dedup gate
agree on an item exactly when membership of its raw id in processed_videos
coincides with membership of its md5("{id}_{title}") digest in
video_hash_cache; the two checks consult different stores with different
keys, so they need not agree in general. -/
theorem C2_dedup_agreement_iff (s : DedupState) (v : Video) :
    pushAccepts s v = pollAccepts s v ↔
      s.processed_videos.contains v.id = s.video_hash_cache.contains (video_hash v) := by
  simp [pushAccepts, pollAccepts]

/-- C3 (counterexample): a new item arriving on the push path with a failing
download.  video_notification_callback adds the raw id to processed_videos
(and persists it) before the pipeline runs, so after the failed download the
dedup state is not unchanged — the item will not be retried on the push
path. -/
theorem C3_push_marks_before_pipeline_cex :
    video_notification_callback ⟨[], []⟩ ⟨"v1", "t", none⟩ false ≠
      (⟨[], []⟩ : DedupState) := by
  decide

/-- C3 (amended): on the polling path a download failure or a
duration-policy/split failure leaves the dedup state unchanged, so the item
can be retried on a later cycle; on the push path, by contrast, a not yet
processed item is marked processed (appended to processed_videos) before the
download even starts, regardless of the download's outcome. -/
theorem C3_dedup_unchanged_on_failure (s : DedupState) (v : Video) :
    (∀ splitOk, check_channel_for_new_videos s v false splitOk = s) ∧
    check_channel_for_new_videos s v true false = s ∧
    (∀ dlOk, s.processed_videos.contains v.id = false →
      video_notification_callback s v dlOk =
        { s with processed_videos := s.processed_videos ++ [v.id] }) := by
  refine ⟨?_, ?_, ?_⟩
  · intro splitOk
    simp [check_channel_for_new_videos]
  · simp [check_channel_for_new_videos]
  · intro dlOk h
    simp only [video_notification_callback]
    rw [if_neg (by simpa using h)]

/-- C3 (witness): the amended statement at the empty dedup state. -/
theorem C3_dedup_unchanged_on_failure_w :
    check_channel_for_new_videos ⟨[], []⟩ ⟨"v1", "t", none⟩ false true = ⟨[], []⟩ ∧
      video_notification_callback ⟨[], []⟩ ⟨"v1", "t", none⟩ false =
        (⟨["v1"], []⟩ : DedupState) := by
  have h := C3_dedup_unchanged_on_failure ⟨[], []⟩ ⟨"v1", "t", none⟩
  exact ⟨h.1 true, h.2.2 false (by decide)⟩

/-! ## Single-in-flight processing (src/youtube_monitor_pubsub.py,
src/youtube_monitor.py) -/

/-- Pipeline events of the process: a push-path job starting or finishing
(process_video_async), and a polling-path worker starting or finishing a
per-channel pipeline run (one thread per channel spawned by
monitor_all_channels). -/
inductive Ev where
  | pushStart
  | pushFinish
  | pollStart
  | pollFinish
deriving DecidableEq

/-- Process state for the in-flight analysis: the processing_video flag of
the pubsub monitor (src/youtube_monitor_pubsub.py line 38) and the number of
running pipeline jobs on each path. -/
structure MonState where
  processing_video : Bool
  pushJobs : ℕ
  pollJobs : ℕ
deriving DecidableEq

/-- Initial process state: flag clear, no jobs running. -/
def initState : MonState := ⟨false, 0, 0⟩

/-- Transition function distilled from the sources.  pushStart is
process_video_async (src/youtube_monitor_pubsub.py lines 160-166): an event
arriving while processing_video is set is dropped, otherwise the flag is set
and a job starts; pushFinish is its finally block (lines 248-249).
pollStart is a worker thread spawned by monitor_all_channels
(src/youtube_monitor.py lines 709-716) running the full pipeline in
check_channel_for_new_videos, which never consults processing_video — the
polling path has no in-flight guard; pollFinish is such a thread
finishing. -/
def step (s : MonState) : Ev → MonState
  | .pushStart =>
    if s.processing_video then s
    else { s with processing_video := true, pushJobs := s.pushJobs + 1 }
  | .pushFinish =>
    if s.pushJobs = 0 then s
    else { s with processing_video := false, pushJobs := s.pushJobs - 1 }
  | .pollStart => { s with pollJobs := s.pollJobs + 1 }
  | .pollFinish =>
    if s.pollJobs = 0 then s
    else { s with pollJobs := s.pollJobs - 1 }

/-- State reached from the initial state after a sequence of events. -/
def run (tr : List Ev) : MonState := tr.foldl step initState

/-- Number of pipeline jobs in flight across the process. -/
def inFlight (s : MonState) : ℕ := s.pushJobs + s.pollJobs

/-- A trace that uses only the push-notification path. -/
def pushOnly (tr : List Ev) : Prop :=
  ∀ e ∈ tr, e = Ev.pushStart ∨ e = Ev.pushFinish

/-- C1 (counterexample): two polling-path workers started by
monitor_all_channels (one thread per configured channel, with no in-flight
check anywhere on that path) yield two simultaneously running pipeline jobs,
refuting the claim that the in-flight job count is always 0 or 1 across the
whole process. -/
theorem C1_in_flight_cex : ¬ inFlight (run [Ev.pollStart, Ev.pollStart]) ≤ 1 := by
  decide

/-- Invariant of push-only execution: no polling jobs, at most one push job,
and the processing_video flag is set exactly while a push job runs. -/
def pushInv (s : MonState) : Prop :=
  s.pollJobs = 0 ∧ s.pushJobs ≤ 1 ∧ (s.processing_video = true ↔ s.pushJobs = 1)

lemma pushInv_step {s : MonState} (hs : pushInv s) {e : Ev}
    (he : e = Ev.pushStart ∨ e = Ev.pushFinish) : pushInv (step s e) := by
  obtain ⟨pv, pushJ, pollJ⟩ := s
  obtain ⟨hpoll, hle, hiff⟩ := hs
  simp only at hpoll hle hiff
  rcases he with rfl | rfl
  · cases pv with
    | true => exact ⟨hpoll, hle, hiff⟩
    | false =>
      have h1 : pushJ ≠ 1 := fun h => by simpa using hiff.mpr h
      have h0 : pushJ = 0 := by omega
      subst h0
      exact ⟨hpoll, le_refl 1, by simp [step]⟩
  · cases pushJ with
    | zero => exact ⟨hpoll, hle, hiff⟩
    | succ k =>
      have hk : k = 0 := by omega
      subst hk
      exact ⟨hpoll, by simp [step], by simp [step]⟩

lemma pushInv_run {s : MonState} (hs : pushInv s) (tr : List Ev)
    (htr : ∀ e ∈ tr, e = Ev.pushStart ∨ e = Ev.pushFinish) :
    pushInv (tr.foldl step s) := by
  induction tr generalizing s with
  | nil => exact hs
  | cons e tr ih =>
    simp only [List.foldl_cons]
    exact ih (pushInv_step hs (htr e (List.mem_cons_self e tr)))
      (fun x hx => htr x (List.mem_cons_of_mem e hx))

/-- C1 (amended): restricted to the push-notification path the
single-in-flight property holds — for every sequence of push events an event
arriving while a job is active is dropped by the processing_video guard and
the in-flight job count stays at most 1; the per-channel polling path,
however, spawns one unguarded worker per channel, so the process-wide job
count can exceed 1 (see the counterexample). -/
theorem C1_push_single_in_flight (tr : List Ev) (htr : pushOnly tr) :
    inFlight (run tr) ≤ 1 := by
  have hinit : pushInv initState := by simp [pushInv, initState]
  obtain ⟨hpoll, hle, -⟩ := pushInv_run hinit tr htr
  simp only [inFlight, run] at *
  omega

/-- C1 (witness): a push-only trace in which the second event arrives while
the first job is still running. -/
theorem C1_push_single_in_flight_w :
    pushOnly [Ev.pushStart, Ev.pushStart, Ev.pushFinish] ∧
      inFlight (run [Ev.pushStart, Ev.pushStart, Ev.pushFinish]) ≤ 1 :=
  ⟨by simp [pushOnly], C1_push_single_in_flight _ (by simp [pushOnly])⟩

/-! ## Channel routing (src/youtube_monitor_pubsub.py) -/

/-- Channel configuration entry as read by the routing code: name,
channel_id and tiktok_cookie are looked up with dict .get, so the latter two
are optional with defaults "" and "default". -/
structure Channel where
  name : String
  channel_id : Option String
  tiktok_cookie : Option String
deriving DecidableEq

/-- Embedding of find_channel_for_video (src/youtube_monitor_pubsub.py lines
251-295): with no channel id on the event, fall back to the first configured
channel (none when the list is empty); otherwise return the first channel
whose channel_id matches exactly, falling back to the first configured
channel, and none when the list is empty. -/
def find_channel_for_video (channels : List Channel) (v : Video) : Option Channel :=
  match v.channel_id with
  | none => channels.head?
  | some cid =>
    match channels.find? (fun ch => ch.channel_id.getD "" == cid) with
    | some ch => some ch
    | none => channels.head?

/-- Destination-account cookie selection of process_video_async
(src/youtube_monitor_pubsub.py line 187): the routed channel's
tiktok_cookie, defaulting to "default" when routing produced no channel or
the channel has no cookie configured. -/
def cookie_for (c : Option Channel) : String :=
  match c with
  | some ch => ch.tiktok_cookie.getD "default"
  | none => "default"

/-- C10 (confirmed): with an empty configured channel list, routing returns
no channel for every content event — with or without a channel id on the
event — and the pipeline then proceeds with the literal default cookie
"default". -/
theorem C10_empty_channels_default (v : Video) :
    find_channel_for_video [] v = none ∧
      cookie_for (find_channel_for_video [] v) = "default" := by
  rcases v with ⟨id, title, cid⟩
  cases cid <;> simp [find_channel_for_video, cookie_for]

/-! ## Download stage (src/youtube_monitor.py) -/

/-- State of the download target path on disk: nothing, a zero-byte file, or
a non-empty file (the code distinguishes only existence and size > 0, so a
non-empty incomplete file is indistinguishable from a complete one). -/
inductive Disk where
  | clean
  | emptyFile
  | fullFile
deriving DecidableEq, Fintype

/-- Outcome of one external downloader invocation (yt-dlp attempt or pytube
fallback): whether the call raised an exception, and the state in which it
left the target path. -/
structure Attempt where
  raised : Bool
  left : Disk
deriving DecidableEq, Fintype

/-- Result of the download stage: whether a path was returned (success), the
final state of the target path on disk, and whether the pytube fallback was
invoked. -/
structure DlResult where
  path : Bool
  disk : Disk
  fallbackTried : Bool
deriving DecidableEq, Fintype

/-- Embedding of download_video (src/youtube_monitor.py lines 252-332)
composed with download_video_pytube_fallback (lines 372-415), on the
outcomes a1, a2 of the two yt-dlp attempts and fb of the pytube fallback.
Attempt 1: a non-raising call leaving a non-empty file returns it; an empty
file is removed (lines 300-304) and the attempt retried; a raising call at
attempt 1 retries (lines 314-319).  Attempt 2: a raising call hits the
final except branch (lines 320-328), which removes any leftover file and
returns None — pytube is never reached; a non-raising call leaving a
non-empty file returns it; otherwise (file missing, or empty and removed)
the loop ends and pytube runs once (lines 330-332).  The pytube fallback
(lines 372-415) returns the file when it exists non-empty; on any other
outcome it returns None without removing whatever it left on disk. -/
def download_video (a1 a2 fb : Attempt) : DlResult :=
  if a1.raised = false ∧ a1.left = Disk.fullFile then ⟨true, Disk.fullFile, false⟩
  else if a2.raised then ⟨false, Disk.clean, false⟩
  else if a2.left = Disk.fullFile then ⟨true, Disk.fullFile, false⟩
  else if fb.raised then ⟨false, fb.left, true⟩
  else if fb.left = Disk.fullFile then ⟨true, Disk.fullFile, true⟩
  else ⟨false, fb.left, true⟩

/-- C7 (counterexample): two violations of the claim.  First, when both
yt-dlp attempts raise, the final except branch returns None directly and the
pytube fallback is never attempted, even though here it would have
succeeded.  Second, when the primary attempts fail softly and the fallback
leaves a zero-byte file, the stage reports failure but the empty file stays
on disk — the fallback path has no cleanup. -/
theorem C7_fallback_cex :
    (download_video ⟨true, Disk.clean⟩ ⟨true, Disk.clean⟩
        ⟨false, Disk.fullFile⟩).fallbackTried = false ∧
      ((download_video ⟨false, Disk.clean⟩ ⟨false, Disk.clean⟩
          ⟨false, Disk.emptyFile⟩).path = false ∧
        (download_video ⟨false, Disk.clean⟩ ⟨false, Disk.clean⟩
            ⟨false, Disk.emptyFile⟩).disk ≠ Disk.clean) := by
  decide

/-- C7 (amended): whenever the stage reports success the returned file
exists and is non-empty; when the primary attempts fail and the final
attempt did not raise, the fallback is attempted exactly once; when the
final primary attempt raises, the stage reports failure with a clean disk
and without attempting the fallback; and when the attempted fallback also
fails, the stage reports failure but whatever the fallback left on disk
(including a zero-byte or partial file) remains there. -/
theorem C7_download_fallback : ∀ a1 a2 fb : Attempt,
    ((download_video a1 a2 fb).path = true →
      (download_video a1 a2 fb).disk = Disk.fullFile) ∧
    (¬(a1.raised = false ∧ a1.left = Disk.fullFile) → a2.raised = false →
      a2.left ≠ Disk.fullFile → (download_video a1 a2 fb).fallbackTried = true) ∧
    (¬(a1.raised = false ∧ a1.left = Disk.fullFile) → a2.raised = true →
      download_video a1 a2 fb = ⟨false, Disk.clean, false⟩) ∧
    (¬(a1.raised = false ∧ a1.left = Disk.fullFile) → a2.raised = false →
      a2.left ≠ Disk.fullFile → (fb.raised = true ∨ fb.left ≠ Disk.fullFile) →
      (download_video a1 a2 fb).path = false ∧
        (download_video a1 a2 fb).disk = fb.left) := by
  intro a1 a2 fb
  rcases a1 with ⟨r1, d1⟩
  rcases a2 with ⟨r2, d2⟩
  rcases fb with ⟨r3, d3⟩
  refine ⟨?_, ?_, ?_, ?_⟩ <;>
    cases r1 <;> cases r2 <;> cases r3 <;> cases d1 <;> cases d2 <;> cases d3 <;> decide

/-- C7 (witness): the amended statement exercised on concrete outcomes — a
soft primary failure followed by a raising fallback, and a raising second
attempt that suppresses the fallback. -/
theorem C7_download_fallback_w :
    (download_video ⟨false, Disk.clean⟩ ⟨false, Disk.clean⟩
        ⟨true, Disk.emptyFile⟩).fallbackTried = true ∧
      download_video ⟨false, Disk.clean⟩ ⟨true, Disk.clean⟩ ⟨false, Disk.fullFile⟩ =
        ⟨false, Disk.clean, false⟩ := by
  have h1 := C7_download_fallback ⟨false, Disk.clean⟩ ⟨false, Disk.clean⟩
    ⟨true, Disk.emptyFile⟩
  have h2 := C7_download_fallback ⟨false, Disk.clean⟩ ⟨true, Disk.clean⟩
    ⟨false, Disk.fullFile⟩
  exact ⟨h1.2.1 (by decide) rfl (by decide), h2.2.2.1 (by decide) rfl⟩

/-! ## Upload fan-out (src/youtube_monitor.py) -/

/-- Embedding of upload_part_worker (src/youtube_monitor.py lines 334-370).
The segment file is modelled by its size on disk (none = missing); uploadOk
is the outcome of the single upload_to_tiktok call (lines 526-590, which
catches every exception and returns a boolean; it invokes the external
uploader exactly once and has no retry).  The result is the number of upload
attempts made, paired with the file state afterwards: a missing or zero-byte
file aborts before uploading (lines 340-347), a successful upload deletes
the file (lines 356-359), a failed upload retains it (lines 362-365). -/
def upload_part_worker (file : Option ℕ) (uploadOk : Bool) : ℕ × Option ℕ :=
  match file with
  | none => (0, none)
  | some 0 => (0, some 0)
  | some (n + 1) => (1, if uploadOk then none else some (n + 1))

/-- C8 (confirmed): every per-segment upload worker makes at most one upload
attempt, and exactly one precisely when the segment file exists and is
non-empty; in that case the file is deleted exactly when the attempt
succeeds and retained when it fails; a missing or zero-byte file is never
uploaded and is left untouched. -/
theorem C8_upload_worker_behavior (file : Option ℕ) (up : Bool) :
    (upload_part_worker file up).1 ≤ 1 ∧
    ((upload_part_worker file up).1 = 1 ↔ ∃ n, file = some (n + 1)) ∧
    (∀ n, file = some (n + 1) →
      (upload_part_worker file up).2 = if up then none else file) ∧
    (file = none ∨ file = some 0 → upload_part_worker file up = (0, file)) := by
  rcases file with _ | k
  · refine ⟨by simp [upload_part_worker], ?_, ?_, ?_⟩
    · simp [upload_part_worker]
    · intro n h; exact absurd h (by simp)
    · intro _; simp [upload_part_worker]
  · rcases k with _ | m
    · refine ⟨by simp [upload_part_worker], ?_, ?_, ?_⟩
      · simp [upload_part_worker]
      · intro n h; exact absurd h (by simp)
      · intro _; simp [upload_part_worker]
    · refine ⟨by simp [upload_part_worker], ?_, ?_, ?_⟩
      · constructor
        · intro _; exact ⟨m, rfl⟩
        · intro _; rfl
      · intro n h
        simp only [upload_part_worker]
      · intro h
        rcases h with h | h <;> exact absurd h (by simp)

/-- C8 (witness): the worker behavior at a 5-byte segment file whose upload
succeeds — one attempt, file deleted. -/
theorem C8_upload_worker_behavior_w :
    (upload_part_worker (some 5) true).1 = 1 ∧ (upload_part_worker (some 5) true).2 = none := by
  have h := C8_upload_worker_behavior (some 5) true
  refine ⟨(h.2.1).mpr ⟨4, rfl⟩, ?_⟩
  have h2 := h.2.2.1 4 rfl
  simpa using h2

/-! ## Channel-list cache (src/youtube_monitor.py) -/

/-- Embedding of cache_scrapetube_data (src/youtube_monitor.py lines
166-182) on a cache modelled as a list of (key, payload) pairs in insertion
order (the OrderedDict scrapetube_cache, head oldest); the payload
(videos plus timestamp) is abstracted to a number.  The cache key is
"scrapetube_" ++ channel_id (line 168); assignment to an existing key
updates the value in place (OrderedDict assignment does not move the entry),
a new key is appended, and when the size exceeds max_cache_size = 50
(line 35) popitem(last=False) removes the oldest entry.  The periodic disk
save (lines 180-182) does not change the in-memory structure. -/
def cache_scrapetube_data (cache : List (String × ℕ)) (channel_id : String)
    (videos : ℕ) : List (String × ℕ) :=
  let key := "scrapetube_" ++ channel_id
  let c :=
    if cache.any (fun p => p.1 == key) then
      cache.map (fun p => if p.1 == key then (key, videos) else p)
    else cache ++ [(key, videos)]
  if 50 < c.length then c.drop 1 else c

/-- Result of feeding a sequence of (channel_id, payload) insertions into an
initially empty channel-list cache. -/
def insertAll (l : List (String × ℕ)) : List (String × ℕ) :=
  l.foldl (fun c p => cache_scrapetube_data c p.1 p.2) []

/-- Cache entries an insertion sequence would produce: each channel id
turned into the cache key the code computes. -/
def keyed (l : List (String × ℕ)) : List (String × ℕ) :=
  l.map (fun p => ("scrapetube_" ++ p.1, p.2))

lemma put_fresh (c : List (String × ℕ)) (k : String) (v : ℕ)
    (hk : ∀ q ∈ c, q.1 ≠ "scrapetube_" ++ k) :
    cache_scrapetube_data c k v =
      if 50 < c.length + 1 then (c ++ [("scrapetube_" ++ k, v)]).drop 1
      else c ++ [("scrapetube_" ++ k, v)] := by
  have hany : c.any (fun p => p.1 == "scrapetube_" ++ k) = false := by
    rw [List.any_eq_false]
    intro p hp
    simpa using hk p hp
  simp only [cache_scrapetube_data, hany]
  simp

lemma put_update (c : List (String × ℕ)) (k : String) (v : ℕ)
    (hk : c.any (fun p => p.1 == "scrapetube_" ++ k) = true) :
    cache_scrapetube_data c k v =
      if 50 < c.length then
        (c.map (fun p => if p.1 == "scrapetube_" ++ k then
          ("scrapetube_" ++ k, v) else p)).drop 1
      else c.map (fun p => if p.1 == "scrapetube_" ++ k then
        ("scrapetube_" ++ k, v) else p) := by
  simp only [cache_scrapetube_data, hk, if_true]
  rw [List.length_map]

/-- Folding fresh-keyed insertions into a cache of at most 50 entries keeps
exactly the 50 most recent entries: the result is the concatenation of the
initial cache and the keyed insertions, with everything but the last 50
entries dropped. -/
lemma insert_chain (xs : List (String × ℕ)) :
    ∀ c : List (String × ℕ), c.length ≤ 50 →
      ((c ++ keyed xs).map Prod.fst).Nodup →
      xs.foldl (fun c p => cache_scrapetube_data c p.1 p.2) c =
        (c ++ keyed xs).drop ((c ++ keyed xs).length - 50) := by
  induction xs with
  | nil =>
    intro c hlen _
    simp only [List.foldl_nil, keyed, List.map_nil, List.append_nil]
    rw [Nat.sub_eq_zero_of_le hlen, List.drop_zero]
  | cons x xs ih =>
    intro c hlen hnd
    have hkeyed : keyed (x :: xs) = ("scrapetube_" ++ x.1, x.2) :: keyed xs := by
      simp [keyed]
    have hassoc : c ++ keyed (x :: xs) =
        (c ++ [("scrapetube_" ++ x.1, x.2)]) ++ keyed xs := by
      rw [hkeyed, List.append_cons]
    have hfresh : ∀ q ∈ c, q.1 ≠ "scrapetube_" ++ x.1 := by
      intro q hq hcontra
      rw [hkeyed, List.map_append, List.nodup_append] at hnd
      exact hnd.2.2 (List.mem_map_of_mem Prod.fst hq) (by rw [hcontra]; simp)
    have hput := put_fresh c x.1 x.2 hfresh
    simp only [List.foldl_cons]
    rcases Nat.lt_or_ge c.length 50 with hsmall | hbig
    · have hc2 : cache_scrapetube_data c x.1 x.2 = c ++ [("scrapetube_" ++ x.1, x.2)] := by
        rw [hput, if_neg (by omega)]
      rw [hc2]
      have := ih (c ++ [("scrapetube_" ++ x.1, x.2)])
        (by simp; omega)
        (by rw [← hassoc]; exact hnd)
      rw [this, ← hassoc]
    · have h50 : c.length = 50 := le_antisymm hlen hbig
      have hc2 : cache_scrapetube_data c x.1 x.2 =
          (c ++ [("scrapetube_" ++ x.1, x.2)]).drop 1 := by
        rw [hput, if_pos (by omega)]
      rw [hc2]
      have hle1 : 1 ≤ (c ++ [("scrapetube_" ++ x.1, x.2)]).length := by
        simp
      have hdrop1 : (c ++ [("scrapetube_" ++ x.1, x.2)]).drop 1 ++ keyed xs =
          (c ++ keyed (x :: xs)).drop 1 := by
        conv_rhs => rw [hassoc, List.drop_append_of_le_length hle1]
      have hlen2 : ((c ++ [("scrapetube_" ++ x.1, x.2)]).drop 1).length ≤ 50 := by
        simp [h50]
      have hnd2 : ((((c ++ [("scrapetube_" ++ x.1, x.2)]).drop 1) ++ keyed xs).map
          Prod.fst).Nodup := by
        rw [hdrop1]
        exact hnd.sublist (List.Sublist.map Prod.fst (List.drop_sublist 1 _))
      have := ih ((c ++ [("scrapetube_" ++ x.1, x.2)]).drop 1) hlen2 hnd2
      rw [this, hdrop1, List.drop_drop, List.length_drop]
      congr 1
      have hlenL : 51 ≤ (c ++ keyed (x :: xs)).length := by
        rw [hassoc]
        simp only [List.length_append, List.length_singleton]
        omega
      omega

/-- C9 (confirmed): starting from an empty cache, inserting capacity + k
entries with pairwise distinct keys leaves exactly the capacity = 50 most
recent entries in the cache — the k oldest-inserted keys have been evicted
(the result is the keyed insertion sequence with its first k entries
dropped) — and every put on a cache of at most 50 entries leaves at most 50
entries. -/
theorem C9_lru_eviction (l : List (String × ℕ)) (k : ℕ)
    (hnd : ((keyed l).map Prod.fst).Nodup) (hlen : l.length = 50 + k) :
    insertAll l = (keyed l).drop k ∧
    (insertAll l).length = 50 ∧
    (∀ c channel_id v, c.length ≤ 50 →
      (cache_scrapetube_data c channel_id v).length ≤ 50) := by
  have hkl : (keyed l).length = 50 + k := by simp [keyed, hlen]
  have hchain := insert_chain l [] (by simp) (by simpa using hnd)
  have hmain : insertAll l = (keyed l).drop k := by
    rw [insertAll, hchain]
    simp [hkl]
  refine ⟨hmain, ?_, ?_⟩
  · rw [hmain, List.length_drop, hkl]
    omega
  · intro c channel_id v hc
    cases hany : c.any (fun p => p.1 == "scrapetube_" ++ channel_id) with
    | true =>
      rw [put_update c channel_id v hany]
      split
      · rw [List.length_drop, List.length_map]
        omega
      · rw [List.length_map]
        exact hc
    | false =>
      have hfresh : ∀ q ∈ c, q.1 ≠ "scrapetube_" ++ channel_id := by
        intro q hq
        have := List.any_eq_false.mp hany q hq
        simpa using this
      rw [put_fresh c channel_id v hfresh]
      split
      · rw [List.length_drop]
        simp only [List.length_append, List.length_singleton]
        omega
      · rename_i h
        push_neg at h
        simp only [List.length_append, List.length_singleton]
        omega

/-- C9 (witness): 51 insertions with distinct channel ids — one more than
the capacity — leave exactly 50 entries with the oldest key evicted. -/
theorem C9_lru_eviction_w :
    ((keyed ((List.range 51).map (fun j => (toString j, j)))).map Prod.fst).Nodup ∧
      insertAll ((List.range 51).map (fun j => (toString j, j))) =
        (keyed ((List.range 51).map (fun j => (toString j, j)))).drop 1 ∧
      (insertAll ((List.range 51).map (fun j => (toString j, j)))).length = 50 := by
  have hnd : ((keyed ((List.range 51).map (fun j => (toString j, j)))).map
      Prod.fst).Nodup := by decide
  have h := C9_lru_eviction ((List.range 51).map (fun j => (toString j, j))) 1 hnd (by simp)
  exact ⟨hnd, h.1, h.2.1⟩

end Relay
